import Mathlib

/-!
Verification of the LVM snapshot manager core (`lvm-manager.py`).

The Python source is shallowly embedded: strings are `String` / `List Char`,
Python exceptions become `Except` / `Option`, external process results become
an explicit `CmdResult` record, and `float` values are modelled as rationals
(the toolchain emits finite decimal numerals, which rationals represent
exactly; special values such as inf/nan are outside this model).
-/

namespace LvmManager

/-- Whitespace strip from the front and the back, as Python `str.strip()`. -/
def stripWs (l : List Char) : List Char :=
  ((l.dropWhile Char.isWhitespace).reverse.dropWhile Char.isWhitespace).reverse

/-- Split a character list on a separator character, as Python `s.split(sep)`:
always at least one (possibly empty) part. -/
def splitOnCharL (sep : Char) : List Char → List (List Char)
  | [] => [[]]
  | c :: cs =>
    if c = sep then [] :: splitOnCharL sep cs
    else
      match splitOnCharL sep cs with
      | [] => [[c]]
      | h :: t => (c :: h) :: t

/-- Whitespace split with empty parts dropped, as Python `s.split()`
(accumulator = current word reversed). -/
def splitWsAux : List Char → List Char → List (List Char)
  | [], acc => if acc.isEmpty then [] else [acc.reverse]
  | c :: cs, acc =>
    if c.isWhitespace then
      if acc.isEmpty then splitWsAux cs [] else acc.reverse :: splitWsAux cs []
    else splitWsAux cs (c :: acc)

def splitWsL (l : List Char) : List (List Char) :=
  splitWsAux l []

/-- Numeric value of a digit string (most significant first). -/
def digitsVal (l : List Char) : Nat :=
  l.foldl (fun acc c => 10 * acc + (c.toNat - 48)) 0

/-- No two consecutive underscores. -/
def noDoubleUS : List Char → Bool
  | [] => true
  | [_] => true
  | a :: b :: rest => !(a = '_' && b = '_') && noDoubleUS (b :: rest)

/-- A valid body for Python `int()` after the optional sign: nonempty digits,
with single underscores allowed between digits. -/
def validIntBody (l : List Char) : Bool :=
  !l.isEmpty && l.all (fun c => c.isDigit || c = '_') &&
    (l.headD '0').isDigit && (l.getLastD '0').isDigit && noDoubleUS l

/-- Python `int(s)` on a character list: strips whitespace, optional sign,
then digits with optional single underscores; `none` models a raised
`ValueError`. -/
def pyIntOfChars (l : List Char) : Option Int :=
  let t := stripWs l
  if t.headD ' ' = '+' then
    if validIntBody t.tail then some (digitsVal (t.tail.filter Char.isDigit)) else none
  else if t.headD ' ' = '-' then
    if validIntBody t.tail then some (-(digitsVal (t.tail.filter Char.isDigit) : Int))
    else none
  else if validIntBody t then some (digitsVal (t.filter Char.isDigit)) else none

/-- Python `str.isdigit`-filtered value of one version segment that failed
`int()`: digits extracted, empty means 0. -/
def segFallback (p : List Char) : Int :=
  let ds := p.filter Char.isDigit
  if ds.isEmpty then 0 else (digitsVal ds : Int)

/-- The per-segment parse of `parse_version`: `int(p)`, and on failure the
digits-only fallback. -/
def segVal (p : List Char) : Int :=
  match pyIntOfChars p with
  | some n => n
  | none => segFallback p

/-- `parse_version` on a character list: truncate at the first `(`, strip,
split on `.`, parse each segment. -/
def parseVersionL (l : List Char) : List Int :=
  (splitOnCharL '.' (stripWs ((splitOnCharL '(' l).headD []))).map segVal

/-- `parse_version(version_str)` from the source (result as a list of ints,
Python's tuple). -/
def parse_version (version_str : String) : List Int :=
  parseVersionL version_str.data

/-- Python `float(s)` on a character list, restricted to finite decimal
literals (optional sign, digits with optional fraction, optional exponent);
`none` models a raised `ValueError`. -/
def pyFloatOfChars (l : List Char) : Option ℚ :=
  let l0 := stripWs l
  let sgn : ℚ := if l0.headD ' ' = '-' then -1 else 1
  let l1 := if l0.headD ' ' = '-' ∨ l0.headD ' ' = '+' then l0.tail else l0
  let ip := l1.takeWhile Char.isDigit
  let l2 := l1.drop ip.length
  let fp := if l2.headD ' ' = '.' then l2.tail.takeWhile Char.isDigit else []
  let l3 := if l2.headD ' ' = '.' then l2.tail.drop fp.length else l2
  if ip.isEmpty ∧ fp.isEmpty then none
  else
    let mant : ℚ := sgn * ((digitsVal ip : ℚ) + (digitsVal fp : ℚ) / (10 : ℚ) ^ fp.length)
    match l3 with
    | [] => some mant
    | e :: r =>
      if e = 'e' ∨ e = 'E' then
        let esgn : Int := if r.headD ' ' = '-' then -1 else 1
        let r1 := if r.headD ' ' = '-' ∨ r.headD ' ' = '+' then r.tail else r
        if r1.isEmpty ∨ ¬ r1.all Char.isDigit then none
        else some (mant * (10 : ℚ) ^ (esgn * (digitsVal r1 : Int)))
      else none

/- String-level wrappers for the Python operations used by the source. -/

def pyStrip (s : String) : String := String.mk (stripWs s.data)

def pySplitWs (s : String) : List String := (splitWsL s.data).map String.mk

def pySplitChar (sep : Char) (s : String) : List String :=
  (splitOnCharL sep s.data).map String.mk

/-- Python `str.replace(a, b)` for one-character patterns. -/
def pyReplaceChar (a b : Char) (s : String) : String :=
  String.mk (s.data.map fun c => if c = a then b else c)

/-- Python `str.replace(a, '')` for a one-character pattern. -/
def pyRemoveChar (a : Char) (s : String) : String :=
  String.mk (s.data.filter fun c => c ≠ a)

/-- Python `str.splitlines()` on already-stripped text: empty string gives no
lines, otherwise split on newline. -/
def pySplitlines (s : String) : List String :=
  if s.data.isEmpty then [] else pySplitChar '\n' s

def pyFloat (s : String) : Option ℚ := pyFloatOfChars s.data

def pyInt (s : String) : Option Int := pyIntOfChars s.data

/-- Captured result of one external process invocation
(`subprocess.run(..., stdout=PIPE, stderr=PIPE, text=True)`). -/
structure CmdResult where
  returncode : Int
  stdout : String
  stderr : String
deriving Repr, DecidableEq

/-- Step 1 of `DetailsTableDialog.fix_parts`: `parts[2] = parts[2] + ',' +
parts[3]; del parts[3]` when at least 4 fields are present. -/
def mergeSize (parts : List String) : List String :=
  if 4 ≤ parts.length then
    parts.take 2 ++ [parts.getD 2 "" ++ "," ++ parts.getD 3 ""] ++ parts.drop 4
  else parts

/-- Step 2 of `fix_parts`: `parts.insert(4, '')` when exactly 7 fields
remain. -/
def insertOrigin (parts : List String) : List String :=
  if parts.length = 7 then parts.take 4 ++ [""] ++ parts.drop 4 else parts

/-- Step 3 of `fix_parts`: `parts[7] = ' '.join(parts[7:]); del parts[8:]`
when more than 8 fields remain. -/
def mergeTail (parts : List String) : List String :=
  if 8 < parts.length then parts.take 7 ++ [String.intercalate " " (parts.drop 7)]
  else parts

/-- `DetailsTableDialog.fix_parts`: repair of one naively comma-split detail
row, three sequential in-place edits. -/
def fix_parts (parts : List String) : List String :=
  mergeTail (insertOrigin (mergeSize parts))

/-- One row of `DetailsTableDialog`: naive comma split then `fix_parts`. -/
def repairRow (line : String) : List String :=
  fix_parts (pySplitChar ',' line)

/-- One line of `lvs` enumeration output parsed as in
`LvmManager.list_logical_volumes`; `Except.error` models the `IndexError`
raised when fewer than two tokens are present. -/
def parseLvLine (line : String) : Except String (String × String × Bool) :=
  match pySplitWs (pyStrip line) with
  | lv :: vg :: rest => .ok (vg, lv, !(rest.headD "").isEmpty)
  | _ => .error "IndexError"

/-- The record a well-formed (≥ 2 token) enumeration line yields. -/
def lvRecordOf (line : String) : String × String × Bool :=
  match pySplitWs (pyStrip line) with
  | lv :: vg :: rest => (vg, lv, !(rest.headD "").isEmpty)
  | _ => ("", "", false)

/-- `LvmManager.list_logical_volumes`, over the captured result of the
enumeration command; `Except.error` models a raised exception
(`RuntimeError` on non-zero exit, `IndexError` from a short line). -/
def list_logical_volumes (r : CmdResult) : Except String (List (String × String × Bool)) :=
  if r.returncode ≠ 0 then .error ("Error running lvs: " ++ pyStrip r.stderr)
  else (pySplitlines (pyStrip r.stdout)).mapM parseLvLine

/-- One line of the snapshot detail output, as scanned by
`LvmManager.get_snapshot_info`: `none` when the line is skipped, `some`
when the loop returns at this line. -/
def snapLine (lv_name : String) (line : String) : Option (Option ℚ × Option ℚ) :=
  let parts := pySplitWs (pyStrip line)
  if parts.length = 3 ∧ parts.getD 0 "" = lv_name then
    some (match pyFloat (pyReplaceChar ',' '.' (parts.getD 1 "")),
          pyFloat (pyRemoveChar '%' (pyReplaceChar ',' '.' (parts.getD 2 ""))) with
      | some size_mb, some percent => (some (size_mb * percent / 100), some size_mb)
      | _, _ => (none, none))
  else none

/-- The line scan of `get_snapshot_info`: first matching line decides. -/
def snapScan (lv_name : String) : List String → Option ℚ × Option ℚ
  | [] => (none, none)
  | l :: ls =>
    match snapLine lv_name l with
    | some res => res
    | none => snapScan lv_name ls

/-- `LvmManager.get_snapshot_info`, over the captured result of the detail
command. The second component counts external invocations performed. -/
def get_snapshot_info (lv_name : String) (is_snap : Bool) (r : CmdResult) :
    (Option ℚ × Option ℚ) × Nat :=
  if !is_snap then ((none, none), 0)
  else
    (if r.returncode ≠ 0 then (none, none)
     else snapScan lv_name (pySplitlines (pyStrip r.stdout)), 1)

/-- `LvmManager.get_vg_free_space`, over the captured result of the
group-capacity command. -/
def get_vg_free_space (r : CmdResult) : Option ℚ × Option ℚ :=
  if r.returncode ≠ 0 then (none, none)
  else
    let line := pyStrip r.stdout
    if line = "" then (none, none)
    else
      let parts := pySplitWs line
      if parts.length ≠ 2 then (none, none)
      else
        match pyFloat (pyReplaceChar ',' '.' (parts.getD 0 "")),
              pyFloat (pyReplaceChar ',' '.' (parts.getD 1 "")) with
        | some free_mb, some size_mb => (some free_mb, some size_mb)
        | _, _ => (none, none)

/-- Used space derived in `MainWindow.update_usage`: `used_mb = size_mb - free_mb`. -/
def vgUsed (free_mb size_mb : ℚ) : ℚ := size_mb - free_mb

/-- `CommandThread.run`: the operation either returns `(success, msg)` or
raises (`Except.error` carries `str(e)`); the result is the list of
`finished_signal` emissions, in order. -/
def commandThreadEvents (op : Except String (Bool × String)) : List (Bool × String) :=
  match op with
  | .ok (success, msg) => [(success, msg)]
  | .error e => [(false, e)]

/-- Python `>` on tuples of ints (lexicographic, prefix is smaller). -/
def pyTupleGt : List Int → List Int → Bool
  | [], _ => false
  | _ :: _, [] => true
  | a :: as, b :: bs => if b < a then true else if a < b then false else pyTupleGt as bs

/-- The compatibility-warning condition of `MainWindow.__init__`:
`current_version is not None and current_version > (2, 3, 30)`. -/
def warnsCompat (current_version : Option (List Int)) : Bool :=
  match current_version with
  | none => false
  | some t => pyTupleGt t [2, 3, 30]

/-! ## Length behaviour of the CSV repair -/

theorem mergeSize_length (parts : List String) :
    (mergeSize parts).length = if 4 ≤ parts.length then parts.length - 1 else parts.length := by
  unfold mergeSize
  split_ifs with h
  · simp only [List.length_append, List.length_take, List.length_drop, List.length_cons,
      List.length_nil]
    omega
  · rfl

theorem insertOrigin_length (parts : List String) :
    (insertOrigin parts).length = if parts.length = 7 then 8 else parts.length := by
  unfold insertOrigin
  split_ifs with h
  · simp only [List.length_append, List.length_take, List.length_drop, List.length_cons,
      List.length_nil]
    omega
  · rfl

theorem mergeTail_length (parts : List String) :
    (mergeTail parts).length = if 8 < parts.length then 8 else parts.length := by
  unfold mergeTail
  split_ifs with h
  · simp only [List.length_append, List.length_take, List.length_cons, List.length_nil]
    omega
  · rfl

/-- Claim C1 as stated is false: a raw detail line that naively splits on
commas into 6 tokens is repaired to 5 fields, not 8. -/
theorem C1_counterexample :
    (pySplitChar ',' "a,b,c,d,e,f").length = 6 ∧
    (repairRow "a,b,c,d,e,f").length = 5 := by
  constructor <;> rfl

/-- Claim C1 (amended): for every raw detail row whose naive comma split has
between 8 and 10 tokens, `fix_parts` produces exactly 8 fields (6- and
7-token rows come out with 5 and 6 fields respectively). -/
theorem C1_repair_field_count (parts : List String)
    (h8 : 8 ≤ parts.length) (h10 : parts.length ≤ 10) :
    (fix_parts parts).length = 8 := by
  unfold fix_parts
  rw [mergeTail_length, insertOrigin_length, mergeSize_length]
  split_ifs <;> omega

theorem C1_repair_field_count_witness :
    8 ≤ (["a", "b", "c", "d", "e", "f", "g", "h"] : List String).length ∧
    (fix_parts ["a", "b", "c", "d", "e", "f", "g", "h"]).length = 8 :=
  ⟨by decide, C1_repair_field_count ["a", "b", "c", "d", "e", "f", "g", "h"]
    (by decide) (by decide)⟩

/-! ## The inventory line parser -/

theorem parseLvLine_ok_of_two_le (line : String)
    (h : 2 ≤ (pySplitWs (pyStrip line)).length) :
    parseLvLine line = .ok (lvRecordOf line) := by
  unfold parseLvLine lvRecordOf
  rcases hs : pySplitWs (pyStrip line) with _ | ⟨lv, _ | ⟨vg, rest⟩⟩ <;>
    rw [hs] at h <;> simp_all

/-- Claim C2 as stated is false: a one-token enumeration line is not dropped
silently; the parse raises an `IndexError` that escapes the whole call. -/
theorem C2_counterexample :
    list_logical_volumes ⟨0, "onlyone", ""⟩ = .error "IndexError" := by rfl

/-- Claim C2 (amended): a line with at least 2 whitespace tokens yields one
LogicalVolume record; a line with fewer than 2 tokens raises an
`IndexError` that propagates out of the inventory call (the line is not
silently dropped). -/
theorem C2_line_parse (line : String) :
    (2 ≤ (pySplitWs (pyStrip line)).length → parseLvLine line = .ok (lvRecordOf line)) ∧
    ((pySplitWs (pyStrip line)).length < 2 → parseLvLine line = .error "IndexError") := by
  refine ⟨parseLvLine_ok_of_two_le line, fun h => ?_⟩
  unfold parseLvLine
  rcases hs : pySplitWs (pyStrip line) with _ | ⟨lv, _ | ⟨vg, rest⟩⟩ <;>
    rw [hs] at h <;> simp_all <;> omega

theorem C2_line_parse_witness :
    (2 ≤ (pySplitWs (pyStrip "lv1 vg1")).length ∧
      parseLvLine "lv1 vg1" = .ok (lvRecordOf "lv1 vg1")) ∧
    ((pySplitWs (pyStrip "onlyone")).length < 2 ∧
      parseLvLine "onlyone" = .error "IndexError") :=
  ⟨⟨by decide, (C2_line_parse "lv1 vg1").1 (by decide)⟩,
   ⟨by decide, (C2_line_parse "onlyone").2 (by decide)⟩⟩

/-! ## The snapshot-info and capacity parsers -/

theorem snapLine_ok (lv line nm sz pc : String) (s p : ℚ)
    (hsplit : pySplitWs (pyStrip line) = [nm, sz, pc]) (hnm : nm = lv)
    (hs : pyFloat (pyReplaceChar ',' '.' sz) = some s)
    (hp : pyFloat (pyRemoveChar '%' (pyReplaceChar ',' '.' pc)) = some p) :
    snapLine lv line = some (some (s * p / 100), some s) := by
  subst hnm
  simp only [snapLine, hsplit, List.getD_cons_zero, List.getD_cons_succ]
  rw [if_pos (by simp), hs, hp]

theorem snapLine_fail (lv line nm sz pc : String)
    (hsplit : pySplitWs (pyStrip line) = [nm, sz, pc]) (hnm : nm = lv)
    (hfail : pyFloat (pyReplaceChar ',' '.' sz) = none ∨
      pyFloat (pyRemoveChar '%' (pyReplaceChar ',' '.' pc)) = none) :
    snapLine lv line = some (none, none) := by
  subst hnm
  simp only [snapLine, hsplit, List.getD_cons_zero, List.getD_cons_succ]
  rw [if_pos (by simp)]
  rcases hfail with hf | hf
  · rw [hf]
  · rcases hv : pyFloat (pyReplaceChar ',' '.' sz) with _ | v
    · rfl
    · rw [hf]

/-- Claim C3: a detail line with exactly 3 whitespace tokens whose first
token is the requested name yields `usedMB = sizeMB * dataPercent / 100`,
with `,` accepted as decimal separator; a float-parse failure on that line
yields `(None, None)` instead of an error. -/
theorem C3_snapshot_usage :
    (get_snapshot_info "snap1" true ⟨0, "snap1 1024.00 25.00", ""⟩
      = ((some 256, some 1024), 1)) ∧
    (get_snapshot_info "snap1" true ⟨0, "snap1 1024,00 25,00", ""⟩
      = ((some 256, some 1024), 1)) ∧
    (∀ (lv line nm sz pc : String) (s p : ℚ),
      pySplitWs (pyStrip line) = [nm, sz, pc] → nm = lv →
      pyFloat (pyReplaceChar ',' '.' sz) = some s →
      pyFloat (pyRemoveChar '%' (pyReplaceChar ',' '.' pc)) = some p →
      snapLine lv line = some (some (s * p / 100), some s)) ∧
    (∀ lv line nm sz pc : String,
      pySplitWs (pyStrip line) = [nm, sz, pc] → nm = lv →
      (pyFloat (pyReplaceChar ',' '.' sz) = none ∨
        pyFloat (pyRemoveChar '%' (pyReplaceChar ',' '.' pc)) = none) →
      snapLine lv line = some (none, none)) := by
  refine ⟨?_, ?_, snapLine_ok, snapLine_fail⟩
  · have hline := snapLine_ok "snap1" "snap1 1024.00 25.00" "snap1" "1024.00" "25.00" 1024 25
      (by decide) rfl
      (by simp [pyReplaceChar, pyFloat, pyFloatOfChars, stripWs, digitsVal])
      (by simp [pyRemoveChar, pyReplaceChar, pyFloat, pyFloatOfChars, stripWs, digitsVal])
    have hlines : pySplitlines (pyStrip "snap1 1024.00 25.00") = ["snap1 1024.00 25.00"] := by
      decide
    norm_num [get_snapshot_info, hlines, snapScan, hline]
  · have hline := snapLine_ok "snap1" "snap1 1024,00 25,00" "snap1" "1024,00" "25,00" 1024 25
      (by decide) rfl
      (by simp [pyReplaceChar, pyFloat, pyFloatOfChars, stripWs, digitsVal])
      (by simp [pyRemoveChar, pyReplaceChar, pyFloat, pyFloatOfChars, stripWs, digitsVal])
    have hlines : pySplitlines (pyStrip "snap1 1024,00 25,00") = ["snap1 1024,00 25,00"] := by
      decide
    norm_num [get_snapshot_info, hlines, snapScan, hline]

theorem C3_snapshot_usage_witness :
    pySplitWs (pyStrip "snap1 2048,00 50,00%") = ["snap1", "2048,00", "50,00%"] ∧
    pyFloat (pyReplaceChar ',' '.' "2048,00") = some 2048 ∧
    pyFloat (pyRemoveChar '%' (pyReplaceChar ',' '.' "50,00%")) = some 50 ∧
    snapLine "snap1" "snap1 2048,00 50,00%" = some (some (2048 * 50 / 100), some 2048) :=
  ⟨by decide,
    by simp [pyReplaceChar, pyFloat, pyFloatOfChars, stripWs, digitsVal],
    by simp [pyReplaceChar, pyRemoveChar, pyFloat, pyFloatOfChars, stripWs, digitsVal],
    C3_snapshot_usage.2.2.1 "snap1" "snap1 2048,00 50,00%" "snap1" "2048,00" "50,00%"
      2048 50 (by decide) rfl
      (by simp [pyReplaceChar, pyFloat, pyFloatOfChars, stripWs, digitsVal])
      (by simp [pyReplaceChar, pyRemoveChar, pyFloat, pyFloatOfChars, stripWs, digitsVal])⟩

/-- Claim C7: the group-capacity query yields `(None, None)` on non-zero
exit, empty output, a token count other than 2, or a numeric-parse
failure, and otherwise `(freeMB, totalMB)` with `,` accepted as decimal
separator; the derived used space is `totalMB - freeMB`. -/
theorem C7_group_capacity :
    (∀ r : CmdResult, r.returncode ≠ 0 → get_vg_free_space r = (none, none)) ∧
    (∀ r : CmdResult, pyStrip r.stdout = "" → get_vg_free_space r = (none, none)) ∧
    (∀ r : CmdResult, (pySplitWs (pyStrip r.stdout)).length ≠ 2 →
      get_vg_free_space r = (none, none)) ∧
    (∀ (r : CmdResult) (a b : String),
      pySplitWs (pyStrip r.stdout) = [a, b] →
      (pyFloat (pyReplaceChar ',' '.' a) = none ∨
        pyFloat (pyReplaceChar ',' '.' b) = none) →
      get_vg_free_space r = (none, none)) ∧
    (∀ (r : CmdResult) (a b : String) (f t : ℚ),
      r.returncode = 0 → pySplitWs (pyStrip r.stdout) = [a, b] →
      pyFloat (pyReplaceChar ',' '.' a) = some f →
      pyFloat (pyReplaceChar ',' '.' b) = some t →
      get_vg_free_space r = (some f, some t) ∧ vgUsed f t = t - f) := by
  refine ⟨?_, ?_, ?_, ?_, ?_⟩
  · intro r h
    simp [get_vg_free_space, h]
  · intro r h
    by_cases hrc : r.returncode ≠ 0
    · simp [get_vg_free_space, hrc]
    · simp [get_vg_free_space, hrc, h]
  · intro r h
    by_cases hrc : r.returncode ≠ 0
    · simp [get_vg_free_space, hrc]
    · by_cases hline : pyStrip r.stdout = ""
      · simp [get_vg_free_space, hrc, hline]
      · simp [get_vg_free_space, hrc, hline, h]
  · intro r a b hsplit hfail
    have hne : ¬ pyStrip r.stdout = "" := by
      intro he
      rw [he, (rfl : pySplitWs "" = [])] at hsplit
      exact List.noConfusion hsplit
    by_cases hrc : r.returncode ≠ 0
    · simp [get_vg_free_space, hrc]
    · simp only [get_vg_free_space, hsplit, if_neg hrc, if_neg hne,
        List.length_cons, List.length_nil, List.getD_cons_zero, List.getD_cons_succ]
      rw [if_neg (by omega)]
      rcases hfail with hf | hf
      · rw [hf]
      · rcases hv : pyFloat (pyReplaceChar ',' '.' a) with _ | v
        · rfl
        · rw [hf]
  · intro r a b f t hrc hsplit hf ht
    have hne : ¬ pyStrip r.stdout = "" := by
      intro he
      rw [he, (rfl : pySplitWs "" = [])] at hsplit
      exact List.noConfusion hsplit
    refine ⟨?_, rfl⟩
    have hrc2 : ¬ r.returncode ≠ 0 := by simp [hrc]
    simp only [get_vg_free_space, hsplit, if_neg hrc2, if_neg hne,
      List.length_cons, List.length_nil, List.getD_cons_zero, List.getD_cons_succ]
    rw [if_neg (by omega), hf, ht]

theorem C7_group_capacity_witness :
    (⟨0, "500.00 2000.00", ""⟩ : CmdResult).returncode = 0 ∧
    pySplitWs (pyStrip (⟨0, "500.00 2000.00", ""⟩ : CmdResult).stdout)
      = ["500.00", "2000.00"] ∧
    get_vg_free_space ⟨0, "500.00 2000.00", ""⟩ = (some 500, some 2000) ∧
    vgUsed 500 2000 = 2000 - 500 :=
  ⟨rfl, by decide,
    (C7_group_capacity.2.2.2.2 ⟨0, "500.00 2000.00", ""⟩ "500.00" "2000.00" 500 2000
      rfl (by decide)
      (by simp [pyReplaceChar, pyFloat, pyFloatOfChars, stripWs, digitsVal])
      (by simp [pyReplaceChar, pyFloat, pyFloatOfChars, stripWs, digitsVal])).1,
    (C7_group_capacity.2.2.2.2 ⟨0, "500.00 2000.00", ""⟩ "500.00" "2000.00" 500 2000
      rfl (by decide)
      (by simp [pyReplaceChar, pyFloat, pyFloatOfChars, stripWs, digitsVal])
      (by simp [pyReplaceChar, pyFloat, pyFloatOfChars, stripWs, digitsVal])).2⟩

/-! ## Snapshot-usage guard and the async executor -/

/-- Claim C6: for a volume not flagged as snapshot, `get_snapshot_info`
returns `(None, None)` immediately and performs no external invocation;
with the flag set it performs exactly one. -/
theorem C6_not_snapshot_no_command :
    (∀ (lv : String) (r : CmdResult), get_snapshot_info lv false r = ((none, none), 0)) ∧
    (∀ (lv : String) (r : CmdResult), (get_snapshot_info lv true r).2 = 1) := by
  constructor <;> intro lv r <;> simp [get_snapshot_info]

/-- Claim C9: each run of `CommandThread.run` emits exactly one
`(ok, message)` event: the operation's own pair on normal return, and
`(false, str(e))` when the operation raises. -/
theorem C9_single_completion_event :
    (∀ op : Except String (Bool × String), (commandThreadEvents op).length = 1) ∧
    (∀ (success : Bool) (msg : String),
      commandThreadEvents (.ok (success, msg)) = [(success, msg)]) ∧
    (∀ e : String, commandThreadEvents (.error e) = [(false, e)]) := by
  refine ⟨fun op => ?_, fun success msg => rfl, fun e => rfl⟩
  rcases op with ⟨s, m⟩ | e <;> rfl

/-! ## The inventory contract -/

theorem mapM_parseLvLine_ok (ls : List String)
    (h : ∀ line ∈ ls, 2 ≤ (pySplitWs (pyStrip line)).length) :
    ls.mapM parseLvLine = Except.ok (ls.map lvRecordOf) := by
  induction ls with
  | nil => rfl
  | cons a as ih =>
    have ha := parseLvLine_ok_of_two_le a (h a (by simp))
    have has := ih (fun l hl => h l (by simp [hl]))
    rw [List.mapM_cons, ha, has]
    rfl

/-- Claim C8: a non-zero exit of the enumeration command raises a
`RuntimeError` carrying the captured stderr and no partial list is
returned; on success, each output line yields one record in the tool's
own output order. -/
theorem C8_inventory_contract :
    (∀ r : CmdResult, r.returncode ≠ 0 →
      list_logical_volumes r = .error ("Error running lvs: " ++ pyStrip r.stderr)) ∧
    (∀ r : CmdResult, r.returncode = 0 →
      (∀ line ∈ pySplitlines (pyStrip r.stdout), 2 ≤ (pySplitWs (pyStrip line)).length) →
      list_logical_volumes r = .ok ((pySplitlines (pyStrip r.stdout)).map lvRecordOf)) := by
  constructor
  · intro r h
    simp [list_logical_volumes, h]
  · intro r h hall
    unfold list_logical_volumes
    rw [if_neg (by omega : ¬ r.returncode ≠ 0)]
    exact mapM_parseLvLine_ok _ hall

theorem C8_inventory_contract_witness :
    ((⟨1, "", "boom"⟩ : CmdResult).returncode ≠ 0 ∧
      list_logical_volumes ⟨1, "", "boom"⟩
        = .error ("Error running lvs: " ++ pyStrip "boom")) ∧
    (list_logical_volumes ⟨0, "lv1 vg1\nsnap1 vg1 lv1", ""⟩
      = .ok ((pySplitlines (pyStrip "lv1 vg1\nsnap1 vg1 lv1")).map lvRecordOf)) :=
  ⟨⟨by decide, C8_inventory_contract.1 ⟨1, "", "boom"⟩ (by decide)⟩,
    C8_inventory_contract.2 ⟨0, "lv1 vg1\nsnap1 vg1 lv1", ""⟩ rfl (by decide)⟩

/-! ## The version comparison -/

theorem pyTupleGt_iff_lex (a b : List Int) :
    pyTupleGt a b = true ↔ List.Lex (fun x y : Int => x < y) b a := by
  induction a generalizing b with
  | nil =>
    simp only [pyTupleGt, Bool.false_eq_true, false_iff]
    exact List.Lex.not_nil_right _ b
  | cons x xs ih =>
    cases b with
    | nil =>
      simp only [pyTupleGt, true_iff]
      exact List.Lex.nil
    | cons y ys =>
      by_cases hyx : y < x
      · simp only [pyTupleGt, if_pos hyx, true_iff]
        exact List.Lex.rel hyx
      · by_cases hxy : x < y
        · simp only [pyTupleGt, if_neg hyx, if_pos hxy, Bool.false_eq_true, false_iff]
          intro hl
          cases hl with
          | cons h => exact lt_irrefl x hxy
          | rel h => exact lt_asymm hxy h
        · have hxe : x = y := le_antisymm (not_lt.mp hyx) (not_lt.mp hxy)
          subst hxe
          simp only [pyTupleGt, if_neg hyx, if_neg hxy]
          rw [ih ys]
          constructor
          · intro h
            exact List.Lex.cons h
          · intro h
            cases h with
            | cons h => exact h
            | rel h => exact absurd h hyx

/-- Claim C5: the compatibility warning fires exactly when the parsed
version tuple is lexicographically greater than the baseline `(2, 3, 30)`;
`(2,3,31)` fires it, `(2,3,30)` and `(2,3,29)` do not. -/
theorem C5_version_warning :
    (∀ v : List Int, warnsCompat (some v) = true ↔
      List.Lex (fun x y : Int => x < y) [2, 3, 30] v) ∧
    warnsCompat (some [2, 3, 31]) = true ∧
    warnsCompat (some [2, 3, 30]) = false ∧
    warnsCompat (some [2, 3, 29]) = false :=
  ⟨fun v => pyTupleGt_iff_lex v [2, 3, 30], by decide, by decide, by decide⟩

theorem C5_version_warning_witness :
    List.Lex (fun x y : Int => x < y) [2, 3, 30] [2, 3, 31] :=
  (C5_version_warning.1 [2, 3, 31]).mp (by decide)

/-! ## Character and string facts used by the version parser -/

theorem isDigit_isWhitespace_false (c : Char) (h : c.isDigit = true) :
    c.isWhitespace = false := by
  by_contra hw
  rw [Bool.not_eq_false] at hw
  simp only [Char.isWhitespace, Bool.or_eq_true, decide_eq_true_eq] at hw
  rcases hw with ((h1 | h1) | h1) | h1 <;> subst h1 <;> exact absurd h (by decide)

theorem dropWhile_eq_self_of_false (p : Char → Bool) (l : List Char)
    (h : ∀ c ∈ l, p c = false) : l.dropWhile p = l := by
  cases l with
  | nil => rfl
  | cons c cs => simp [List.dropWhile_cons, h c (List.mem_cons_self c cs)]

theorem stripWs_eq_self (l : List Char) (h : ∀ c ∈ l, c.isWhitespace = false) :
    stripWs l = l := by
  unfold stripWs
  rw [dropWhile_eq_self_of_false _ l h]
  rw [dropWhile_eq_self_of_false _ l.reverse (fun c hc => h c (List.mem_reverse.mp hc))]
  exact List.reverse_reverse l

theorem mem_stripWs (l : List Char) (c : Char) (hc : c ∈ stripWs l) : c ∈ l := by
  unfold stripWs at hc
  rw [List.mem_reverse] at hc
  have h1 : c ∈ (l.dropWhile Char.isWhitespace).reverse :=
    (List.dropWhile_sublist Char.isWhitespace).mem hc
  rw [List.mem_reverse] at h1
  exact (List.dropWhile_sublist Char.isWhitespace).mem h1

theorem splitOnCharL_not_mem (sep : Char) (l : List Char) (h : sep ∉ l) :
    splitOnCharL sep l = [l] := by
  induction l with
  | nil => rfl
  | cons c cs ih =>
    have hc : ¬ c = sep := fun he => h (he ▸ List.mem_cons_self c cs)
    have hcs : sep ∉ cs := fun hm => h (List.mem_cons_of_mem c hm)
    simp [splitOnCharL, hc, ih hcs]

theorem splitOnCharL_append (sep : Char) (l1 l2 : List Char) (h : sep ∉ l1) :
    splitOnCharL sep (l1 ++ sep :: l2) = l1 :: splitOnCharL sep l2 := by
  induction l1 with
  | nil => simp [splitOnCharL]
  | cons c cs ih =>
    have hc : ¬ c = sep := fun he => h (he ▸ List.mem_cons_self c cs)
    have hcs : sep ∉ cs := fun hm => h (List.mem_cons_of_mem c hm)
    simp only [List.cons_append, splitOnCharL, if_neg hc, List.append_eq]
    rw [ih hcs]

theorem splitOnCharL_ne_nil (sep : Char) (l : List Char) : splitOnCharL sep l ≠ [] := by
  induction l with
  | nil => simp [splitOnCharL]
  | cons c cs ih =>
    by_cases hc : c = sep
    · simp [splitOnCharL, hc]
    · simp only [splitOnCharL, if_neg hc]
      rcases hs : splitOnCharL sep cs with _ | ⟨h1, t⟩ <;> simp

theorem noDoubleUS_of_all_digit (l : List Char) (h : ∀ c ∈ l, c.isDigit = true) :
    noDoubleUS l = true := by
  induction l with
  | nil => rfl
  | cons a t ih =>
    cases t with
    | nil => rfl
    | cons b t2 =>
      have ha := h a (List.mem_cons_self a (b :: t2))
      have hne : ¬ a = '_' := fun he => absurd ha (by rw [he]; decide)
      have ht : noDoubleUS (b :: t2) = true :=
        ih (fun c hc => h c (List.mem_cons_of_mem a hc))
      simp [noDoubleUS, hne, ht]

theorem getLastD_mem_cons (l : List Char) :
    ∀ c d : Char, (c :: l).getLastD d ∈ c :: l := by
  induction l with
  | nil => intro c d; simp
  | cons b t ih =>
    intro c d
    rw [List.getLastD_cons]
    exact List.mem_cons_of_mem c (ih b c)

theorem validIntBody_digits (l : List Char) (hne : l ≠ [])
    (h : ∀ c ∈ l, c.isDigit = true) : validIntBody l = true := by
  rcases l with _ | ⟨c, cs⟩
  · exact absurd rfl hne
  · have hall : ∀ x ∈ c :: cs, (x.isDigit || x = '_') = true := by
      intro x hx
      simp [h x hx]
    have h1 : (c :: cs).isEmpty = false := rfl
    have h2 : (c :: cs).all (fun x => x.isDigit || x = '_') = true := List.all_eq_true.mpr hall
    have h3 : ((c :: cs).headD '0').isDigit = true := by
      rw [List.headD_cons]
      exact h c (List.mem_cons_self c cs)
    have h4 : ((c :: cs).getLastD '0').isDigit = true := h _ (getLastD_mem_cons cs c '0')
    have h5 : noDoubleUS (c :: cs) = true := noDoubleUS_of_all_digit _ h
    unfold validIntBody
    rw [h1, h2, h3, h4, h5]
    rfl

theorem validIntBody_no_digit (l : List Char) (h : ∀ c ∈ l, c.isDigit = false) :
    validIntBody l = false := by
  cases l with
  | nil => rfl
  | cons d ds =>
    have hd := h d (List.mem_cons_self d ds)
    simp [validIntBody, hd]

theorem pyIntOfChars_digits (l : List Char) (hne : l ≠ [])
    (h : ∀ c ∈ l, c.isDigit = true) :
    pyIntOfChars l = some (digitsVal l : Int) := by
  simp only [pyIntOfChars]
  have hstrip : stripWs l = l :=
    stripWs_eq_self l (fun c hc => isDigit_isWhitespace_false c (h c hc))
  rw [hstrip]
  rcases l with _ | ⟨c, cs⟩
  · exact absurd rfl hne
  · have hcd := h c (List.mem_cons_self c cs)
    have hplus : ¬ ((c :: cs).headD ' ' = '+') := by
      rw [List.headD_cons]
      intro he
      rw [he] at hcd
      exact absurd hcd (by decide)
    have hminus : ¬ ((c :: cs).headD ' ' = '-') := by
      rw [List.headD_cons]
      intro he
      rw [he] at hcd
      exact absurd hcd (by decide)
    rw [if_neg hplus, if_neg hminus, if_pos (validIntBody_digits _ hne h),
      List.filter_eq_self.mpr h]

theorem pyIntOfChars_no_digit (p : List Char) (h : ∀ c ∈ p, c.isDigit = false) :
    pyIntOfChars p = none := by
  simp only [pyIntOfChars]
  have hs : ∀ c ∈ stripWs p, c.isDigit = false := fun c hc => h c (mem_stripWs p c hc)
  have htail : ∀ c ∈ (stripWs p).tail, c.isDigit = false :=
    fun c hc => hs c (List.mem_of_mem_tail hc)
  have hbodyfail : validIntBody (stripWs p).tail = false := validIntBody_no_digit _ htail
  by_cases h1 : (stripWs p).headD ' ' = '+'
  · rw [if_pos h1, if_neg (by rw [hbodyfail]; exact Bool.false_ne_true)]
  · rw [if_neg h1]
    by_cases h2 : (stripWs p).headD ' ' = '-'
    · rw [if_pos h2, if_neg (by rw [hbodyfail]; exact Bool.false_ne_true)]
    · rw [if_neg h2,
        if_neg (by rw [validIntBody_no_digit _ hs]; exact Bool.false_ne_true)]

theorem segVal_digits (l : List Char) (hne : l ≠ [])
    (h : ∀ c ∈ l, c.isDigit = true) : segVal l = (digitsVal l : Int) := by
  unfold segVal
  rw [pyIntOfChars_digits l hne h]

theorem parseVersionL_three_segments (sx sy sz b : List Char)
    (hx : sx ≠ []) (hxd : ∀ c ∈ sx, c.isDigit = true)
    (hy : sy ≠ []) (hyd : ∀ c ∈ sy, c.isDigit = true)
    (hz : sz ≠ []) (hzd : ∀ c ∈ sz, c.isDigit = true) :
    parseVersionL (sx ++ '.' :: sy ++ '.' :: sz ++ '(' :: b)
      = [(digitsVal sx : Int), (digitsVal sy : Int), (digitsVal sz : Int)] := by
  unfold parseVersionL
  have hpre : sx ++ '.' :: sy ++ '.' :: sz ++ '(' :: b
      = (sx ++ '.' :: (sy ++ '.' :: sz)) ++ '(' :: b := by simp
  have hnp : '(' ∉ sx ++ '.' :: (sy ++ '.' :: sz) := by
    intro hm
    simp only [List.mem_append, List.mem_cons] at hm
    rcases hm with hm | hm | hm | hm | hm
    · exact absurd (hxd _ hm) (by decide)
    · exact absurd hm (by decide)
    · exact absurd (hyd _ hm) (by decide)
    · exact absurd hm (by decide)
    · exact absurd (hzd _ hm) (by decide)
  rw [hpre, splitOnCharL_append '(' _ _ hnp, List.headD_cons]
  have hws : ∀ c ∈ sx ++ '.' :: (sy ++ '.' :: sz), c.isWhitespace = false := by
    intro c hm
    simp only [List.mem_append, List.mem_cons] at hm
    rcases hm with hm | hm | hm | hm | hm
    · exact isDigit_isWhitespace_false c (hxd _ hm)
    · rw [hm]; decide
    · exact isDigit_isWhitespace_false c (hyd _ hm)
    · rw [hm]; decide
    · exact isDigit_isWhitespace_false c (hzd _ hm)
  rw [stripWs_eq_self _ hws]
  have hdx : '.' ∉ sx := fun hm => absurd (hxd _ hm) (by decide)
  have hdy : '.' ∉ sy := fun hm => absurd (hyd _ hm) (by decide)
  have hdz : '.' ∉ sz := fun hm => absurd (hzd _ hm) (by decide)
  rw [splitOnCharL_append '.' sx _ hdx, splitOnCharL_append '.' sy sz hdy,
    splitOnCharL_not_mem '.' sz hdz]
  simp only [List.map_cons, List.map_nil]
  rw [segVal_digits sx hx hxd, segVal_digits sy hy hyd, segVal_digits sz hz hzd]

/-- Claim C4: a version string of dotted numeric segments followed by a
parenthesized build yields exactly the segment values, e.g.
`"2.03.30(2)"` gives `(2, 3, 30)`; the result length follows the segment
count and is not fixed to 3, and non-digit noise in a segment is
dropped. -/
theorem C4_parse_version :
    (parse_version "2.03.30(2)" = [2, 3, 30]) ∧
    (parse_version "1.2.3.4(x)" = [1, 2, 3, 4]) ∧
    (parse_version "v1.2b.3(x)" = [1, 2, 3]) ∧
    (∀ sx sy sz b : List Char,
      sx ≠ [] → (∀ c ∈ sx, c.isDigit = true) →
      sy ≠ [] → (∀ c ∈ sy, c.isDigit = true) →
      sz ≠ [] → (∀ c ∈ sz, c.isDigit = true) →
      parseVersionL (sx ++ '.' :: sy ++ '.' :: sz ++ '(' :: b)
        = [(digitsVal sx : Int), (digitsVal sy : Int), (digitsVal sz : Int)]) :=
  ⟨by rfl, by rfl, by rfl, parseVersionL_three_segments⟩

theorem C4_parse_version_witness :
    (['2'] : List Char) ≠ [] ∧
    parseVersionL (['2'] ++ '.' :: ['0', '3'] ++ '.' :: ['3', '0'] ++ '(' :: ['2'])
      = [(digitsVal ['2'] : Int), (digitsVal ['0', '3'] : Int), (digitsVal ['3', '0'] : Int)] :=
  ⟨by decide, C4_parse_version.2.2.2 ['2'] ['0', '3'] ['3', '0'] ['2']
    (by decide) (by decide) (by decide) (by decide) (by decide) (by decide)⟩

/-- Claim C10 as stated is false: `parse_version` is total, but its entries
are not always non-negative — `"-5"` parses to the negative entry `-5`. -/
theorem C10_counterexample :
    parse_version "-5" = [-5] ∧ (-5 : Int) < 0 :=
  ⟨by rfl, by decide⟩

/-- Claim C10 (amended): `parse_version` is total and never raises, the
result is always non-empty (the empty string gives `(0,)`), and a segment
with no digit at all contributes 0; entries may however be negative, since
Python `int()` accepts a leading sign. -/
theorem C10_total_version_parse :
    (∀ s : String, parse_version s ≠ []) ∧
    (∀ p : List Char, (∀ c ∈ p, c.isDigit = false) → segVal p = 0) ∧
    parse_version "" = [0] := by
  refine ⟨?_, ?_, by rfl⟩
  · intro s h
    unfold parse_version parseVersionL at h
    rw [List.map_eq_nil_iff] at h
    exact splitOnCharL_ne_nil _ _ h
  · intro p h
    unfold segVal
    rw [pyIntOfChars_no_digit p h]
    unfold segFallback
    have : p.filter Char.isDigit = [] :=
      List.filter_eq_nil_iff.mpr (fun c hc => by simp [h c hc])
    simp [this]

theorem C10_total_version_parse_witness :
    parse_version "x" ≠ [] ∧ segVal ['x'] = 0 :=
  ⟨C10_total_version_parse.1 "x", C10_total_version_parse.2.1 ['x'] (by decide)⟩

end LvmManager
